import Mathlib

/-!
Verification of the web-analyzer page-analysis engine (package `analyzer`).

The definitions below are a shallow embedding of the Go source:
`New`, `AnalyzeURL`, `fetchHTML`, `analyzeDocument`, `traverseNode`,
`processLink`, `isLoginForm`, `checkFormFields`, `detectHTMLVersion`,
`extractLinks`, `extractLinksFromNode`, `checkLinksAccessibility`,
`checkSingleLink` (pkg/analyzer), with the `Result` record from
pkg/analyzer/types.go.

External collaborators (net/url parsing and reference resolution, the
HTTP transport, the x/net/html parser) are modelled as explicit
function parameters; the theorems quantify over them, and small
concrete instances are supplied only for witnesses and counterexamples.
-/

namespace WebAnalyzer

/-! ## String helpers (strings.Contains, strings.ToLower, strings.TrimSpace)

`strToLower` and `strTrim` model `strings.ToLower` and
`strings.TrimSpace` (ASCII-faithful, via per-character maps over the
character list).  `hasSubstr s pat` models `strings.Contains(s, pat)`. -/

/-- `startsWithL pat s`: `pat` is an initial segment of `s`. -/
def startsWithL : List Char → List Char → Bool
  | [], _ => true
  | _ :: _, [] => false
  | a :: as, b :: bs => a = b && startsWithL as bs

/-- `substrAux pat s`: some suffix of `s` starts with `pat`. -/
def substrAux (pat : List Char) : List Char → Bool
  | [] => startsWithL pat []
  | b :: bs => startsWithL pat (b :: bs) || substrAux pat bs

/-- `hasSubstr s pat` models Go `strings.Contains(s, pat)`. -/
def hasSubstr (s pat : String) : Bool :=
  substrAux pat.toList s.toList

/-- `strings.ToLower` (character-wise lowering). -/
def strToLower (s : String) : String :=
  String.mk (s.data.map Char.toLower)

/-- Whitespace as trimmed by `strings.TrimSpace`. -/
def isSpaceChar (c : Char) : Bool :=
  c = ' ' || c = '\t' || c = '\n' || c = '\r'

/-- `strings.TrimSpace`: drop whitespace from both ends. -/
def strTrim (s : String) : String :=
  String.mk (((s.data.dropWhile isSpaceChar).reverse.dropWhile
    isSpaceChar).reverse)

/-! ## Data model -/

/-- The node kinds of `golang.org/x/net/html` used by the analyzer. -/
inductive NodeType where
  | document
  | element
  | text
  | comment
  | doctype
  deriving DecidableEq, Repr

/-- One entry of `html.Node.Attr`. -/
structure Attr where
  key : String
  val : String
  deriving DecidableEq, Repr

/-- `html.Node`, in the pointer shape the Go code walks: a node has a
type, a `Data` string, an attribute list, a `FirstChild` pointer and a
`NextSibling` pointer; `nil` is the null pointer.  The Go loop
`for c := n.FirstChild; c != nil; c = c.NextSibling` is recursion on the
`nextSibling` component. -/
inductive HTMLNode where
  | nil : HTMLNode
  | node (ntype : NodeType) (data : String) (attrs : List Attr)
      (firstChild nextSibling : HTMLNode) : HTMLNode
  deriving DecidableEq, Repr

/-- The projection of `net/url.URL` the analyzer reads: `Scheme` and
`Host` (plus an opaque remainder so distinct URLs stay distinct). -/
structure GoURL where
  scheme : String
  host : String
  rest : String
  deriving DecidableEq, Repr

/-- The URL capability of `net/url` as consumed by the analyzer:
`url.Parse` (may fail), `URL.ResolveReference` (base first) and
`URL.String`. -/
structure URLOps where
  parse : String → Option GoURL
  resolve : GoURL → GoURL → GoURL
  render : GoURL → String

/-- `analyzer.Result` (pkg/analyzer/types.go).  The Go
`map[string]int` for `Headings` is modelled as an association list with
distinct keys; a key is in the map only once inserted. -/
structure Result where
  url : String := ""
  htmlVersion : String := ""
  title : String := ""
  headings : List (String × Nat) := []
  internalLinks : Nat := 0
  externalLinks : Nat := 0
  inaccessibleLinks : Nat := 0
  hasLoginForm : Bool := false
  deriving DecidableEq, Repr

/-- The record built at the top of `AnalyzeURL`:
`&Result{URL: targetURL, Headings: make(map[string]int)}`. -/
def initResult (targetURL : String) : Result :=
  { url := targetURL }

/-! ## The headings map (Go `map[string]int` access patterns) -/

/-- Go map read `m[k]` (zero value for an absent key). -/
def lookupNat (m : List (String × Nat)) (k : String) : Nat :=
  match m with
  | [] => 0
  | (k', v) :: rest => if k' = k then v else lookupNat rest k

/-- Go map key-presence test (`_, ok := m[k]`). -/
def memKey (m : List (String × Nat)) (k : String) : Bool :=
  match m with
  | [] => false
  | (k', _) :: rest => k' = k || memKey rest k

/-- Go map increment `m[k]++`: inserts `k ↦ 1` when `k` is absent. -/
def bump (m : List (String × Nat)) (k : String) : List (String × Nat) :=
  match m with
  | [] => [(k, 1)]
  | (k', v) :: rest => if k' = k then (k', v + 1) :: rest else (k', v) :: bump rest k

/-! ## Generic pre-order folds over the node tree

Every recursive walk in the source (`traverseNode`, `checkFormFields`,
`extractLinksFromNode`) has the same shape: act on the node, then walk
the child chain.  `chainFold step n s` walks `n`, its subtree, and its
following siblings; `nodeFold step n s` is the Go call `walk(n)`: the
node and its subtree only (the caller's loop handles siblings). -/

section Folds

variable {σ : Type} {β : Type}

/-- Pre-order fold over a node, its descendants, and its following
siblings. -/
def chainFold (step : HTMLNode → σ → σ) : HTMLNode → σ → σ
  | .nil, s => s
  | .node t d a fc ns, s =>
      chainFold step ns (chainFold step fc (step (.node t d a fc ns) s))

/-- Pre-order fold over a node and its descendants (not its siblings):
the denotation of calling the Go recursion on `n`. -/
def nodeFold (step : HTMLNode → σ → σ) (n : HTMLNode) (s : σ) : σ :=
  match n with
  | .nil => s
  | .node t d a fc ns => chainFold step fc (step (.node t d a fc ns) s)

/-- Sum of a per-node weight over a node, its descendants and its
following siblings. -/
def chainCount (c : HTMLNode → Nat) : HTMLNode → Nat
  | .nil => 0
  | .node t d a fc ns =>
      c (.node t d a fc ns) + (chainCount c fc + chainCount c ns)

/-- Sum of a per-node weight over a node and its descendants. -/
def nodeCount (c : HTMLNode → Nat) (n : HTMLNode) : Nat :=
  match n with
  | .nil => 0
  | .node t d a fc ns => c (.node t d a fc ns) + chainCount c fc

/-- Does some node in the chain (node, descendants, following siblings)
satisfy `c`? -/
def anyChain (c : HTMLNode → Bool) : HTMLNode → Bool
  | .nil => false
  | .node t d a fc ns =>
      c (.node t d a fc ns) || anyChain c fc || anyChain c ns

/-- Does the node or one of its descendants satisfy `c`? -/
def anyNode (c : HTMLNode → Bool) (n : HTMLNode) : Bool :=
  match n with
  | .nil => false
  | .node t d a fc ns => c (.node t d a fc ns) || anyChain c fc

/-- The value written by the last (in pre-order) node of the chain for
which `w` produces a value, if any. -/
def lastWriteChain (w : HTMLNode → Option β) : HTMLNode → Option β
  | .nil => none
  | .node t d a fc ns =>
      match lastWriteChain w ns with
      | some v => some v
      | none =>
          match lastWriteChain w fc with
          | some v => some v
          | none => w (.node t d a fc ns)

/-- `lastWriteChain` restricted to a node and its descendants. -/
def lastWriteNode (w : HTMLNode → Option β) (n : HTMLNode) : Option β :=
  match n with
  | .nil => none
  | .node t d a fc ns =>
      match lastWriteChain w fc with
      | some v => some v
      | none => w (.node t d a fc ns)

theorem chainFold_measure (step : HTMLNode → σ → σ) (f : σ → Nat)
    (c : HTMLNode → Nat) (h : ∀ n s, f (step n s) = f s + c n) :
    ∀ n s, f (chainFold step n s) = f s + chainCount c n := by
  intro n
  induction n with
  | nil => intro s; simp [chainFold, chainCount]
  | node t d a fc ns ihfc ihns =>
      intro s
      simp only [chainFold, chainCount]
      rw [ihns, ihfc, h]
      omega

theorem nodeFold_measure (step : HTMLNode → σ → σ) (f : σ → Nat)
    (c : HTMLNode → Nat) (h : ∀ n s, f (step n s) = f s + c n) :
    ∀ n s, f (nodeFold step n s) = f s + nodeCount c n := by
  intro n s
  cases n with
  | nil => simp [nodeFold, nodeCount]
  | node t d a fc ns =>
      simp only [nodeFold, nodeCount]
      rw [chainFold_measure step f c h, h]
      omega

theorem chainFold_invar (step : HTMLNode → σ → σ) (f : σ → β)
    (h : ∀ n s, f (step n s) = f s) :
    ∀ n s, f (chainFold step n s) = f s := by
  intro n
  induction n with
  | nil => intro s; simp [chainFold]
  | node t d a fc ns ihfc ihns =>
      intro s
      simp only [chainFold]
      rw [ihns, ihfc, h]

theorem nodeFold_invar (step : HTMLNode → σ → σ) (f : σ → β)
    (h : ∀ n s, f (step n s) = f s) :
    ∀ n s, f (nodeFold step n s) = f s := by
  intro n s
  cases n with
  | nil => simp [nodeFold]
  | node t d a fc ns =>
      simp only [nodeFold]
      rw [chainFold_invar step f h, h]

theorem chainFold_flag (step : HTMLNode → σ → σ) (f : σ → Bool)
    (c : HTMLNode → Bool) (h : ∀ n s, f (step n s) = (f s || c n)) :
    ∀ n s, f (chainFold step n s) = (f s || anyChain c n) := by
  intro n
  induction n with
  | nil => intro s; simp [chainFold, anyChain]
  | node t d a fc ns ihfc ihns =>
      intro s
      simp only [chainFold, anyChain]
      rw [ihns, ihfc, h]
      simp [Bool.or_assoc]

theorem nodeFold_flag (step : HTMLNode → σ → σ) (f : σ → Bool)
    (c : HTMLNode → Bool) (h : ∀ n s, f (step n s) = (f s || c n)) :
    ∀ n s, f (nodeFold step n s) = (f s || anyNode c n) := by
  intro n s
  cases n with
  | nil => simp [nodeFold, anyNode]
  | node t d a fc ns =>
      simp only [nodeFold, anyNode]
      rw [chainFold_flag step f c h, h, Bool.or_assoc]

theorem chainFold_lastWrite (step : HTMLNode → σ → σ) (f : σ → β)
    (w : HTMLNode → Option β)
    (h : ∀ n s, f (step n s) = (w n).getD (f s)) :
    ∀ n s, f (chainFold step n s) = (lastWriteChain w n).getD (f s) := by
  intro n
  induction n with
  | nil => intro s; simp [chainFold, lastWriteChain]
  | node t d a fc ns ihfc ihns =>
      intro s
      simp only [chainFold, lastWriteChain]
      rw [ihns, ihfc, h]
      cases hns : lastWriteChain w ns with
      | some v => simp
      | none =>
          cases hfc : lastWriteChain w fc with
          | some v => simp
          | none => simp

theorem nodeFold_lastWrite (step : HTMLNode → σ → σ) (f : σ → β)
    (w : HTMLNode → Option β)
    (h : ∀ n s, f (step n s) = (w n).getD (f s)) :
    ∀ n s, f (nodeFold step n s) = (lastWriteNode w n).getD (f s) := by
  intro n s
  cases n with
  | nil => simp [nodeFold, lastWriteNode]
  | node t d a fc ns =>
      simp only [nodeFold, lastWriteNode]
      rw [chainFold_lastWrite step f w h, h]
      cases hfc : lastWriteChain w fc with
      | some v => simp
      | none => simp

theorem chainCount_mono (c c' : HTMLNode → Nat) (h : ∀ n, c' n ≤ c n) :
    ∀ n, chainCount c' n ≤ chainCount c n := by
  intro n
  induction n with
  | nil => simp [chainCount]
  | node t d a fc ns ihfc ihns =>
      simp only [chainCount]
      have := h (.node t d a fc ns)
      omega

theorem nodeCount_mono (c c' : HTMLNode → Nat) (h : ∀ n, c' n ≤ c n) :
    ∀ n, nodeCount c' n ≤ nodeCount c n := by
  intro n
  cases n with
  | nil => simp [nodeCount]
  | node t d a fc ns =>
      simp only [nodeCount]
      have h1 := h (.node t d a fc ns)
      have h2 := chainCount_mono c c' h fc
      omega

theorem anyChain_pos (c : HTMLNode → Bool) :
    ∀ n, anyChain c n = true ↔ 0 < chainCount (fun m => (c m).toNat) n := by
  intro n
  induction n with
  | nil => simp [anyChain, chainCount]
  | node t d a fc ns ihfc ihns =>
      simp only [anyChain, chainCount, Bool.or_eq_true]
      cases hc : c (.node t d a fc ns) <;> simp [hc, ihfc, ihns]

theorem anyNode_pos (c : HTMLNode → Bool) :
    ∀ n, anyNode c n = true ↔ 0 < nodeCount (fun m => (c m).toNat) n := by
  intro n
  cases n with
  | nil => simp [anyNode, nodeCount]
  | node t d a fc ns =>
      simp only [anyNode, nodeCount, Bool.or_eq_true]
      cases hc : c (.node t d a fc ns) <;>
        simp [hc, anyChain_pos]

end Folds

/-! ## The analyzer functions (pkg/analyzer, lines 805–1249) -/

/-- `detectHTMLVersion` (lines 1074–1090): trim and case-fold the
doctype literal, then: exactly `"html"` → HTML5; containing `"xhtml"` →
XHTML; containing `"html 4"` → HTML 4.01; otherwise the HTML5 default. -/
def detectHTMLVersion (doctype : String) : String :=
  let d := strToLower (strTrim doctype)
  if d = "html" then "HTML5"
  else if hasSubstr d "xhtml" then "XHTML"
  else if hasSubstr d "html 4" then "HTML 4.01"
  else "HTML5"

/-- The attribute scan shared by `processLink` (lines 1000–1018) and
`extractLinksFromNode` (lines 1103–1115): walk the attribute list; at
each `href` key try `url.Parse`; on failure `continue` to the next
attribute, on success resolve against the base URL and stop (`break`). -/
def hrefScan (ops : URLOps) (base : GoURL) : List Attr → Option GoURL
  | [] => none
  | a :: rest =>
      if a.key = "href" then
        match ops.parse a.val with
        | none => hrefScan ops base rest
        | some linkURL => some (ops.resolve base linkURL)
      else hrefScan ops base rest

/-- `processLink` (lines 999–1020): classify an anchor by comparing the
resolved host with the base host (exact string equality); an anchor with
no parseable `href` touches neither counter. -/
def processLink (ops : URLOps) (attrs : List Attr) (r : Result)
    (base : GoURL) : Result :=
  match attrs with
  | [] => r
  | a :: rest =>
      if a.key = "href" then
        match ops.parse a.val with
        | none => processLink ops rest r base
        | some linkURL =>
            let resolvedURL := ops.resolve base linkURL
            if resolvedURL.host = base.host then
              { r with internalLinks := r.internalLinks + 1 }
            else
              { r with externalLinks := r.externalLinks + 1 }
      else processLink ops rest r base

/-- The `inputType` computed by the attribute loop of `checkFormFields`
(lines 1045–1052): the case-folded value of the last `type` attribute,
`""` when there is none. -/
def inputTypeOf (attrs : List Attr) : String :=
  attrs.foldl (fun acc a => if a.key = "type" then strToLower a.val else acc) ""

/-- The `inputName` computed by the attribute loop of `checkFormFields`
(lines 1045–1052): the case-folded value of the last `name` attribute,
`""` when there is none. -/
def inputNameOf (attrs : List Attr) : String :=
  attrs.foldl (fun acc a => if a.key = "name" then strToLower a.val else acc) ""

/-- The per-node action of `checkFormFields` (lines 1040–1066) on the
`(hasPassword, hasUsername)` state. -/
def ckStep (n : HTMLNode) (st : Bool × Bool) : Bool × Bool :=
  match n with
  | .nil => st
  | .node t d attrs _ _ =>
      if t = NodeType.element && d = "input" then
        (st.1 || (inputTypeOf attrs = "password"),
         st.2 ||
           ((inputTypeOf attrs = "text" || inputTypeOf attrs = "email" ||
               inputTypeOf attrs = "") &&
            (hasSubstr (inputNameOf attrs) "user" ||
               hasSubstr (inputNameOf attrs) "email" ||
               hasSubstr (inputNameOf attrs) "login")))
      else st

/-- `checkFormFields` (lines 1040–1071): recursive scan of a node and
its descendants for password and username inputs. -/
def checkFormFields (n : HTMLNode) (st : Bool × Bool) : Bool × Bool :=
  nodeFold ckStep n st

/-- `isLoginForm` (lines 1023–1037). -/
def isLoginForm (n : HTMLNode) : Bool :=
  let st := checkFormFields n (false, false)
  st.1 && st.2

/-- The per-node action of `traverseNode` (lines 968–991): the tag
switch on element nodes and the doctype branch. -/
def travStep (ops : URLOps) (base : GoURL) (n : HTMLNode) (r : Result) :
    Result :=
  match n with
  | .nil => r
  | .node t d attrs fc ns =>
      if t = NodeType.element then
        let tag := strToLower d
        if tag = "title" then
          match fc with
          | .node ft ftext _ _ _ =>
              if ft = NodeType.text then { r with title := strTrim ftext } else r
          | .nil => r
        else if tag = "h1" || tag = "h2" || tag = "h3" || tag = "h4" ||
            tag = "h5" || tag = "h6" then
          { r with headings := bump r.headings tag }
        else if tag = "a" then
          processLink ops attrs r base
        else if tag = "form" then
          if isLoginForm (.node t d attrs fc ns) then
            { r with hasLoginForm := true }
          else r
        else r
      else if t = NodeType.doctype then
        { r with htmlVersion := detectHTMLVersion d }
      else r

/-- `traverseNode` (lines 968–996): pre-order walk applying `travStep`
at every node of the subtree rooted at `n`.  `analyzeDocument`
(lines 957–965) is exactly this call on the document root. -/
def traverseNode (ops : URLOps) (base : GoURL) (n : HTMLNode)
    (r : Result) : Result :=
  nodeFold (travStep ops base) n r

/-- The attribute scan of `extractLinksFromNode` (lines 1103–1115):
like `processLink`'s scan, but appends the resolved URL to the list only
when its scheme is `http` or `https`. -/
def extractHref (ops : URLOps) (base : GoURL) : List Attr → List String →
    List String
  | [], links => links
  | a :: rest, links =>
      if a.key = "href" then
        match ops.parse a.val with
        | none => extractHref ops base rest links
        | some linkURL =>
            let resolvedURL := ops.resolve base linkURL
            if resolvedURL.scheme = "http" || resolvedURL.scheme = "https" then
              links ++ [ops.render resolvedURL]
            else links
      else extractHref ops base rest links

/-- The per-node action of `extractLinksFromNode` (lines 1101–1122):
only exact-`"a"` element nodes are inspected. -/
def extStep (ops : URLOps) (base : GoURL) (n : HTMLNode)
    (links : List String) : List String :=
  match n with
  | .nil => links
  | .node t d attrs _ _ =>
      if t = NodeType.element && d = "a" then extractHref ops base attrs links
      else links

/-- `extractLinks` (lines 1093–1098) via `extractLinksFromNode`
(lines 1101–1122). -/
def extractLinks (ops : URLOps) (base : GoURL) (n : HTMLNode) :
    List String :=
  nodeFold (extStep ops base) n []

/-- The worker-count computation of `checkLinksAccessibility`
(lines 1130–1133): `maxWorkers`, capped at the number of links. -/
def effectiveWorkers (maxWorkers : Nat) (numLinks : Nat) : Nat :=
  if maxWorkers > numLinks then numLinks else maxWorkers

/-- The aggregation loop of `checkLinksAccessibility`
(lines 1203–1210): one boolean per probed link arrives at the
aggregator; it counts the `false` outcomes.  The count is a sum, so it
is independent of arrival order; the sequential fold is the
deterministic denotation of the worker pool (each link is checked
exactly once, the failure cause is not part of the boolean). -/
def countInaccessible (probe : String → Bool) (links : List String) : Nat :=
  links.foldl (fun acc link => if probe link then acc else acc + 1) 0

/-- `checkLinksAccessibility` (lines 1125–1221): an empty list
short-circuits to 0 before any client or worker is created; otherwise
`effectiveWorkers` workers drain the job queue and the aggregator counts
inaccessible outcomes. -/
def checkLinksAccessibility (maxWorkers : Nat) (probe : String → Bool)
    (links : List String) : Nat :=
  if links.length = 0 then 0
  else
    let workers := effectiveWorkers maxWorkers links.length
    let _ := workers
    countInaccessible probe links

/-- The redirect statuses `net/http` follows automatically. -/
def redirectStatus (status : Nat) : Bool :=
  status = 301 || status = 302 || status = 303 || status = 307 || status = 308

/-- Redirect following by the `http.Client` built in `New`
(lines 823–837) and in `checkLinksAccessibility` (lines 1141–1149):
`fetchOne u = some (status, loc)` is one round trip (`none` is a
transport failure); `allowed` is how many further redirects
`CheckRedirect` still permits.  A redirect response with no usable
Location, or one redirect more than allowed, fails the whole request. -/
def doFollow (fetchOne : String → Option (Nat × Option String)) :
    Nat → String → Option Nat
  | allowed, u =>
      match fetchOne u with
      | none => none
      | some (status, loc) =>
          if redirectStatus status then
            match loc with
            | none => none
            | some l =>
                match allowed with
                | 0 => none
                | allowed' + 1 => doFollow fetchOne allowed' l
          else some status

/-- `client.Do` with the `CheckRedirect` of lines 1143–1148: the hook
errors as soon as `len(via) >= MaxRedirects`, and `via` already holds
the initial request at the first redirect, so `maxRedirects - 1` further
hops are allowed. -/
def clientDo (fetchOne : String → Option (Nat × Option String))
    (maxRedirects : Nat) (u : String) : Option Nat :=
  doFollow fetchOne (maxRedirects - 1) u

/-- `checkSingleLink` (lines 1224–1249): request-creation failure or any
`client.Do` error yields `false`; otherwise the target is accessible iff
the final status lies in `[200, 400)`. -/
def checkSingleLink (newReq : String → Bool)
    (fetchOne : String → Option (Nat × Option String)) (maxRedirects : Nat)
    (link : String) : Bool :=
  if newReq link = false then false
  else
    match clientDo fetchOne maxRedirects link with
    | none => false
    | some status => decide (200 ≤ status) && decide (status < 400)

/-- The URL-validation block of `AnalyzeURL` (lines 851–867): parse the
target; if the scheme is empty, prepend `"http://"` and reparse.
Returns the (possibly normalized) target string and its parse. -/
def normalizeTarget (ops : URLOps) (targetURL : String) :
    Option (String × GoURL) :=
  match ops.parse targetURL with
  | none => none
  | some parsedURL =>
      if parsedURL.scheme = "" then
        match ops.parse ("http://" ++ targetURL) with
        | none => none
        | some parsed2 => some ("http://" ++ targetURL, parsed2)
      else some (targetURL, parsedURL)

/-- `AnalyzeURL` (lines 840–916).  `fetch` models `fetchHTML`
(lines 919–954): the composite of the HTTP round trip (failing on
transport errors and on any non-200 status) and `html.Parse`; on any
failure `AnalyzeURL` returns only an error.  On success the document is
traversed, links are extracted, and — only when there is at least one
link — the probe count is merged into the result. -/
def analyzeURL (maxWorkers : Nat) (ops : URLOps) (probe : String → Bool)
    (fetch : String → Except String HTMLNode) (targetURL : String) :
    Except String Result :=
  match normalizeTarget ops targetURL with
  | none => .error "invalid URL"
  | some (target, parsedURL) =>
      match fetch target with
      | .error e => .error ("failed to fetch HTML: " ++ e)
      | .ok doc =>
          let r := traverseNode ops parsedURL doc (initResult target)
          let links := extractLinks ops parsedURL doc
          if links.length > 0 then
            .ok { r with
                  inaccessibleLinks :=
                    checkLinksAccessibility maxWorkers probe links }
          else .ok r

/-! ## Per-node characterisations of the traversal actions -/

/-- An anchor that `processLink` classifies (increments a counter for):
an element whose case-folded tag is `a` and whose attribute scan finds a
parseable `href` — the resolved scheme is not consulted. -/
def anchorCounted (ops : URLOps) (base : GoURL) (n : HTMLNode) : Bool :=
  match n with
  | .nil => false
  | .node t d attrs _ _ =>
      t = NodeType.element && strToLower d = "a" &&
        (hrefScan ops base attrs).isSome

/-- The scan of `extractLinksFromNode` succeeds with an `http`/`https`
resolved scheme. -/
def httpScan (ops : URLOps) (base : GoURL) (attrs : List Attr) : Bool :=
  match hrefScan ops base attrs with
  | none => false
  | some u => u.scheme = "http" || u.scheme = "https"

/-- An anchor that `extractLinksFromNode` adds to the probe set: an
element with exact tag `a` whose scanned href resolves to `http` or
`https`. -/
def anchorProbed (ops : URLOps) (base : GoURL) (n : HTMLNode) : Bool :=
  match n with
  | .nil => false
  | .node t d attrs _ _ =>
      t = NodeType.element && d = "a" && httpScan ops base attrs

/-- A node at which `traverseNode` bumps the headings map at key `k`:
an element whose case-folded tag is one of `h1`..`h6` and equals `k`. -/
def headingAt (k : String) (n : HTMLNode) : Bool :=
  match n with
  | .nil => false
  | .node t d _ _ _ =>
      t = NodeType.element &&
      (strToLower d = "h1" || strToLower d = "h2" || strToLower d = "h3" ||
        strToLower d = "h4" || strToLower d = "h5" || strToLower d = "h6") &&
      strToLower d = k

/-- An element node with case-folded tag `k`. -/
def tagIs (k : String) (n : HTMLNode) : Bool :=
  match n with
  | .nil => false
  | .node t d _ _ _ => t = NodeType.element && strToLower d = k

/-- The title value written by `traverseNode` at a node, if any: for a
`title` element whose first child is a text node, the trimmed text. -/
def titleWrite (n : HTMLNode) : Option String :=
  match n with
  | .nil => none
  | .node t d _ fc _ =>
      if t = NodeType.element then
        if strToLower d = "title" then
          match fc with
          | .node ft ftext _ _ _ =>
              if ft = NodeType.text then some (strTrim ftext) else none
          | .nil => none
        else none
      else none

/-- The HTML-version value written by `traverseNode` at a node, if any:
for a doctype node, the detected version of its literal. -/
def versionWrite (n : HTMLNode) : Option String :=
  match n with
  | .nil => none
  | .node t d _ _ _ =>
      if t = NodeType.doctype then some (detectHTMLVersion d) else none

/-- A `form` element that `isLoginForm` accepts. -/
def loginFormAt (n : HTMLNode) : Bool :=
  match n with
  | .nil => false
  | .node t d attrs fc ns =>
      t = NodeType.element && strToLower d = "form" &&
        isLoginForm (.node t d attrs fc ns)

/-- An `input` element that sets `hasPassword` in `checkFormFields`. -/
def passwordInputAt (n : HTMLNode) : Bool :=
  match n with
  | .nil => false
  | .node t d attrs _ _ =>
      t = NodeType.element && d = "input" && inputTypeOf attrs = "password"

/-- An `input` element that sets `hasUsername` in `checkFormFields`. -/
def usernameInputAt (n : HTMLNode) : Bool :=
  match n with
  | .nil => false
  | .node t d attrs _ _ =>
      t = NodeType.element && d = "input" &&
      ((inputTypeOf attrs = "text" || inputTypeOf attrs = "email" ||
          inputTypeOf attrs = "") &&
       (hasSubstr (inputNameOf attrs) "user" ||
          hasSubstr (inputNameOf attrs) "email" ||
          hasSubstr (inputNameOf attrs) "login"))

/-- Number of anchors in the tree of `n` that `processLink` counts. -/
def countedLinkTotal (ops : URLOps) (base : GoURL) (n : HTMLNode) : Nat :=
  nodeCount (fun m => (anchorCounted ops base m).toNat) n

/-- Number of anchors in the tree of `n` that enter the probe set. -/
def probedLinkTotal (ops : URLOps) (base : GoURL) (n : HTMLNode) : Nat :=
  nodeCount (fun m => (anchorProbed ops base m).toNat) n

/-- Number of element nodes in the tree of `n` with case-folded tag `k`. -/
def tagTotal (k : String) (n : HTMLNode) : Nat :=
  nodeCount (fun m => (tagIs k m).toNat) n

/-- The first `href`-keyed attribute value, as the spec claim reads the
anchor: its sole candidate reference. -/
def firstHrefVal (attrs : List Attr) : Option String :=
  match attrs with
  | [] => none
  | a :: rest => if a.key = "href" then some a.val else firstHrefVal rest

/-- The claim-side anchor criterion of C1 (written from the spec's
words, to be compared with the code's behaviour): the first `href`
attribute parses and resolves to an `http`/`https` address. -/
def specAnchorHttp (ops : URLOps) (base : GoURL) (n : HTMLNode) : Bool :=
  match n with
  | .nil => false
  | .node t d attrs _ _ =>
      t = NodeType.element && strToLower d = "a" &&
      (match firstHrefVal attrs with
       | none => false
       | some v =>
           match ops.parse v with
           | none => false
           | some u =>
               (ops.resolve base u).scheme = "http" ||
               (ops.resolve base u).scheme = "https")

/-- The claim-side count of C1: anchors whose first href parses and
resolves to HTTP/HTTPS. -/
def specHttpAnchorTotal (ops : URLOps) (base : GoURL) (n : HTMLNode) : Nat :=
  nodeCount (fun m => (specAnchorHttp ops base m).toNat) n

/-! ## Helper lemmas: the headings map -/

theorem lookupNat_bump (tag k : String) :
    ∀ m, lookupNat (bump m tag) k =
      lookupNat m k + (if tag = k then 1 else 0) := by
  intro m
  induction m with
  | nil => by_cases h : tag = k <;> simp [bump, lookupNat, h]
  | cons kv rest ih =>
      obtain ⟨k', v⟩ := kv
      by_cases h1 : k' = tag
      · subst h1
        by_cases h2 : k' = k <;> simp [bump, lookupNat, h2]
      · by_cases h2 : k' = k
        · have hne : ¬ tag = k := by
            intro hc; exact h1 (by rw [h2, ← hc])
          have hne2 : ¬ k = tag := fun hc => hne hc.symm
          simp [bump, lookupNat, h1, h2, hne, hne2]
        · simp [bump, lookupNat, h1, h2, ih]

theorem memKey_bump (tag k : String) :
    ∀ m, memKey (bump m tag) k = (memKey m k || decide (tag = k)) := by
  intro m
  induction m with
  | nil => simp [bump, memKey]
  | cons kv rest ih =>
      obtain ⟨k', v⟩ := kv
      by_cases h1 : k' = tag
      · subst h1
        by_cases h2 : k' = k <;> simp [bump, memKey, h2]
      · by_cases h2 : k' = k
        · have hne : ¬ tag = k := by
            intro hc; exact h1 (by rw [h2, ← hc])
          have hne2 : ¬ k = tag := fun hc => hne hc.symm
          simp [bump, memKey, h1, h2, hne, hne2]
        · simp [bump, memKey, h1, h2, ih]

/-! ## Helper lemmas: processLink and extractLinksFromNode -/

theorem processLink_sum (ops : URLOps) (base : GoURL) :
    ∀ attrs r, (processLink ops attrs r base).internalLinks +
        (processLink ops attrs r base).externalLinks =
      r.internalLinks + r.externalLinks +
        ((hrefScan ops base attrs).isSome).toNat := by
  intro attrs
  induction attrs with
  | nil => intro r; simp [processLink, hrefScan]
  | cons a rest ih =>
      intro r
      by_cases hk : a.key = "href"
      · cases hp : ops.parse a.val with
        | none => simp [processLink, hrefScan, hk, hp, ih]
        | some u =>
            by_cases hh : (ops.resolve base u).host = base.host <;>
              simp [processLink, hrefScan, hk, hp, hh] <;> omega
      · simp [processLink, hrefScan, hk, ih]

theorem processLink_keep (ops : URLOps) (base : GoURL) :
    ∀ attrs r, (processLink ops attrs r base).headings = r.headings ∧
      (processLink ops attrs r base).title = r.title ∧
      (processLink ops attrs r base).htmlVersion = r.htmlVersion ∧
      (processLink ops attrs r base).hasLoginForm = r.hasLoginForm ∧
      (processLink ops attrs r base).inaccessibleLinks =
        r.inaccessibleLinks ∧
      (processLink ops attrs r base).url = r.url := by
  intro attrs
  induction attrs with
  | nil => intro r; simp [processLink]
  | cons a rest ih =>
      intro r
      by_cases hk : a.key = "href"
      · cases hp : ops.parse a.val with
        | none => simp [processLink, hk, hp, ih]
        | some u =>
            by_cases hh : (ops.resolve base u).host = base.host <;>
              simp [processLink, hk, hp, hh]
      · simp [processLink, hk, ih]

theorem extractHref_len (ops : URLOps) (base : GoURL) :
    ∀ attrs links, (extractHref ops base attrs links).length =
      links.length + (httpScan ops base attrs).toNat := by
  intro attrs
  induction attrs with
  | nil => intro links; simp [extractHref, httpScan, hrefScan]
  | cons a rest ih =>
      intro links
      by_cases hk : a.key = "href"
      · cases hp : ops.parse a.val with
        | none => simp [extractHref, httpScan, hrefScan, hk, hp, ih]
        | some u =>
            cases hs : ((ops.resolve base u).scheme = "http" ||
                (ops.resolve base u).scheme = "https") <;>
              simp [extractHref, httpScan, hrefScan, hk, hp, hs]
      · simp [extractHref, httpScan, hrefScan, hk, ih]

/-! ## The per-node characterisation of `travStep` -/

theorem ite_one_eq_toNat (p : Prop) [Decidable p] :
    (if p then 1 else 0) = (decide p).toNat := by
  by_cases h : p <;> simp [h]

/-- What one `traverseNode` visit does to each `Result` component,
stated against the per-node predicates. -/
theorem travStep_char (ops : URLOps) (base : GoURL) (k : String)
    (n : HTMLNode) (r : Result) :
    ((travStep ops base n r).internalLinks +
        (travStep ops base n r).externalLinks =
      r.internalLinks + r.externalLinks + (anchorCounted ops base n).toNat)
    ∧ (lookupNat (travStep ops base n r).headings k =
        lookupNat r.headings k + (headingAt k n).toNat)
    ∧ (memKey (travStep ops base n r).headings k =
        (memKey r.headings k || headingAt k n))
    ∧ ((travStep ops base n r).title = (titleWrite n).getD r.title)
    ∧ ((travStep ops base n r).htmlVersion =
        (versionWrite n).getD r.htmlVersion)
    ∧ ((travStep ops base n r).hasLoginForm =
        (r.hasLoginForm || loginFormAt n))
    ∧ ((travStep ops base n r).inaccessibleLinks = r.inaccessibleLinks)
    ∧ ((travStep ops base n r).url = r.url) := by
  cases n with
  | nil =>
      simp [travStep, anchorCounted, headingAt, titleWrite, versionWrite,
        loginFormAt]
  | node t d attrs fc ns =>
      simp only [travStep]
      split_ifs with hel htitle hhead ha hform hlogin hdoct
      · -- title element
        subst hel
        cases fc with
        | nil =>
            simp [anchorCounted, headingAt, titleWrite, versionWrite,
              loginFormAt, htitle]
        | node ft ftext fa ffc fns =>
            by_cases htxt : ft = NodeType.text <;>
              simp [anchorCounted, headingAt, titleWrite, versionWrite,
                loginFormAt, htitle, htxt]
      · -- heading element
        subst hel
        simp only [anchorCounted, headingAt, titleWrite, versionWrite,
          loginFormAt]
        simp only [Bool.or_eq_true, decide_eq_true_eq] at hhead
        obtain ((((h | h) | h) | h) | h) | h := hhead <;>
          simp only [h] <;>
          simp [lookupNat_bump, memKey_bump, ite_one_eq_toNat]
      · -- anchor element
        subst hel
        obtain ⟨hh, htl, hv, hf, hi, hu⟩ := processLink_keep ops base attrs r
        simp [anchorCounted, headingAt, titleWrite, versionWrite,
          loginFormAt, htitle, hhead, ha, hh, htl, hv, hf, hi, hu,
          processLink_sum]
      · -- qualifying form element
        subst hel
        simp [anchorCounted, headingAt, titleWrite, versionWrite,
          loginFormAt, htitle, hhead, ha, hform, hlogin]
      · -- non-qualifying form element
        subst hel
        simp [anchorCounted, headingAt, titleWrite, versionWrite,
          loginFormAt, htitle, hhead, ha, hform, hlogin]
      · -- other element
        subst hel
        simp [anchorCounted, headingAt, titleWrite, versionWrite,
          loginFormAt, htitle, hhead, ha, hform]
      · -- doctype node
        subst hdoct
        simp [anchorCounted, headingAt, titleWrite, versionWrite,
          loginFormAt, hel]
      · -- any other node type
        simp [anchorCounted, headingAt, titleWrite, versionWrite,
          loginFormAt, hel, hdoct]

/-! ## Whole-traversal corollaries -/

theorem traverseNode_linkSum (ops : URLOps) (base : GoURL) (n : HTMLNode)
    (r : Result) :
    (traverseNode ops base n r).internalLinks +
        (traverseNode ops base n r).externalLinks =
      r.internalLinks + r.externalLinks + countedLinkTotal ops base n :=
  nodeFold_measure (travStep ops base)
    (fun s => s.internalLinks + s.externalLinks)
    (fun m => (anchorCounted ops base m).toNat)
    (fun m s => (travStep_char ops base "" m s).1) n r

theorem traverseNode_lookup (ops : URLOps) (base : GoURL) (k : String)
    (n : HTMLNode) (r : Result) :
    lookupNat (traverseNode ops base n r).headings k =
      lookupNat r.headings k +
        nodeCount (fun m => (headingAt k m).toNat) n :=
  nodeFold_measure (travStep ops base)
    (fun s => lookupNat s.headings k)
    (fun m => (headingAt k m).toNat)
    (fun m s => (travStep_char ops base k m s).2.1) n r

theorem traverseNode_mem (ops : URLOps) (base : GoURL) (k : String)
    (n : HTMLNode) (r : Result) :
    memKey (traverseNode ops base n r).headings k =
      (memKey r.headings k || anyNode (headingAt k) n) :=
  nodeFold_flag (travStep ops base)
    (fun s => memKey s.headings k) (headingAt k)
    (fun m s => (travStep_char ops base k m s).2.2.1) n r

theorem traverseNode_title (ops : URLOps) (base : GoURL) (n : HTMLNode)
    (r : Result) :
    (traverseNode ops base n r).title =
      (lastWriteNode titleWrite n).getD r.title :=
  nodeFold_lastWrite (travStep ops base) Result.title titleWrite
    (fun m s => (travStep_char ops base "" m s).2.2.2.1) n r

theorem traverseNode_version (ops : URLOps) (base : GoURL) (n : HTMLNode)
    (r : Result) :
    (traverseNode ops base n r).htmlVersion =
      (lastWriteNode versionWrite n).getD r.htmlVersion :=
  nodeFold_lastWrite (travStep ops base) Result.htmlVersion versionWrite
    (fun m s => (travStep_char ops base "" m s).2.2.2.2.1) n r

theorem traverseNode_loginFlag (ops : URLOps) (base : GoURL)
    (n : HTMLNode) (r : Result) :
    (traverseNode ops base n r).hasLoginForm =
      (r.hasLoginForm || anyNode loginFormAt n) :=
  nodeFold_flag (travStep ops base) Result.hasLoginForm loginFormAt
    (fun m s => (travStep_char ops base "" m s).2.2.2.2.2.1) n r

theorem traverseNode_inacc (ops : URLOps) (base : GoURL) (n : HTMLNode)
    (r : Result) :
    (traverseNode ops base n r).inaccessibleLinks = r.inaccessibleLinks :=
  nodeFold_invar (travStep ops base) Result.inaccessibleLinks
    (fun m s => (travStep_char ops base "" m s).2.2.2.2.2.2.1) n r

/-! ## extractLinks corollaries -/

theorem extStep_len (ops : URLOps) (base : GoURL) (n : HTMLNode)
    (links : List String) :
    (extStep ops base n links).length =
      links.length + (anchorProbed ops base n).toNat := by
  cases n with
  | nil => simp [extStep, anchorProbed]
  | node t d attrs fc ns =>
      by_cases h1 : t = NodeType.element <;>
        by_cases h2 : d = "a" <;>
          simp [extStep, anchorProbed, h1, h2, extractHref_len]

theorem extractLinks_len (ops : URLOps) (base : GoURL) (n : HTMLNode) :
    (extractLinks ops base n).length = probedLinkTotal ops base n := by
  have := nodeFold_measure (extStep ops base) List.length
    (fun m => (anchorProbed ops base m).toNat)
    (fun m s => extStep_len ops base m s) n []
  simpa [extractLinks, probedLinkTotal] using this

theorem anchorProbed_le (ops : URLOps) (base : GoURL) (n : HTMLNode) :
    (anchorProbed ops base n).toNat ≤ (anchorCounted ops base n).toNat := by
  cases n with
  | nil => simp [anchorProbed, anchorCounted]
  | node t d attrs fc ns =>
      by_cases h1 : t = NodeType.element
      · by_cases h2 : d = "a"
        · subst h2
          have hlow : strToLower "a" = "a" := by decide
          cases hs : hrefScan ops base attrs with
          | none => simp [anchorProbed, anchorCounted, httpScan, h1, hs]
          | some u =>
              cases hb : (decide (u.scheme = "http") ||
                  decide (u.scheme = "https")) <;>
                simp [anchorProbed, anchorCounted, httpScan, h1, hlow,
                  hs, hb]
        · simp [anchorProbed, anchorCounted, h1, h2]
      · simp [anchorProbed, anchorCounted, h1]

theorem probed_le_counted (ops : URLOps) (base : GoURL) (n : HTMLNode) :
    probedLinkTotal ops base n ≤ countedLinkTotal ops base n :=
  nodeCount_mono _ _ (fun m => anchorProbed_le ops base m) n

/-! ## checkFormFields corollaries -/

theorem ckStep_fst (n : HTMLNode) (st : Bool × Bool) :
    (ckStep n st).1 = (st.1 || passwordInputAt n) := by
  cases n with
  | nil => simp [ckStep, passwordInputAt]
  | node t d attrs fc ns =>
      by_cases h1 : t = NodeType.element <;>
        by_cases h2 : d = "input" <;>
          simp [ckStep, passwordInputAt, h1, h2]

theorem ckStep_snd (n : HTMLNode) (st : Bool × Bool) :
    (ckStep n st).2 = (st.2 || usernameInputAt n) := by
  cases n with
  | nil => simp [ckStep, usernameInputAt]
  | node t d attrs fc ns =>
      by_cases h1 : t = NodeType.element <;>
        by_cases h2 : d = "input" <;>
          simp [ckStep, usernameInputAt, h1, h2]

theorem checkFormFields_fst (n : HTMLNode) (st : Bool × Bool) :
    (checkFormFields n st).1 = (st.1 || anyNode passwordInputAt n) :=
  nodeFold_flag ckStep Prod.fst passwordInputAt ckStep_fst n st

theorem checkFormFields_snd (n : HTMLNode) (st : Bool × Bool) :
    (checkFormFields n st).2 = (st.2 || anyNode usernameInputAt n) :=
  nodeFold_flag ckStep Prod.snd usernameInputAt ckStep_snd n st

theorem isLoginForm_char (n : HTMLNode) :
    isLoginForm n =
      (anyNode passwordInputAt n && anyNode usernameInputAt n) := by
  simp [isLoginForm, checkFormFields_fst, checkFormFields_snd]

/-! ## Probe-count corollaries -/

theorem foldl_count_le (probe : String → Bool) :
    ∀ (links : List String) (acc : Nat),
      links.foldl (fun a l => if probe l then a else a + 1) acc ≤
        acc + links.length := by
  intro links
  induction links with
  | nil => intro acc; simp
  | cons l rest ih =>
      intro acc
      simp only [List.foldl, List.length_cons]
      by_cases h : probe l = true
      · rw [if_pos h]
        have := ih acc
        omega
      · rw [if_neg h]
        have := ih (acc + 1)
        omega

theorem countInaccessible_le (probe : String → Bool)
    (links : List String) :
    countInaccessible probe links ≤ links.length := by
  have := foldl_count_le probe links 0
  simpa [countInaccessible] using this

theorem checkLinks_le (maxWorkers : Nat) (probe : String → Bool)
    (links : List String) :
    checkLinksAccessibility maxWorkers probe links ≤ links.length := by
  by_cases h : links.length = 0 <;>
    simp [checkLinksAccessibility, h, countInaccessible_le]

/-! ## A concrete URL capability for witnesses and counterexamples

A small executable fragment of `net/url` behaviour, faithful on the
absолute/relative shapes used below: absolute `http(s)://host/path`
URLs, opaque `mailto:`/`javascript:` URLs (scheme set, empty host),
relative references (empty scheme and host), and the malformed `://…`
shape on which `url.Parse` errors.  Resolution follows RFC 3986: an
absolute reference resolves to itself, a relative one takes the base's
scheme and host. -/

/-- `pat` is an initial segment of `s`. -/
def strStarts (s pat : String) : Bool :=
  startsWithL pat.data s.data

/-- Drop the first `n` characters. -/
def strDrop (s : String) (n : Nat) : String :=
  String.mk (s.data.drop n)

/-- Split `host/rest` at the first slash. -/
def splitHostRest (s : String) : String × String :=
  (String.mk (s.data.takeWhile (fun c => !(c = '/'))),
   String.mk (s.data.dropWhile (fun c => !(c = '/'))))

/-- A concrete `url.Parse` fragment (see section comment). -/
def demoParse (s : String) : Option GoURL :=
  if strStarts s "https://" then
    some ⟨"https", (splitHostRest (strDrop s 8)).1,
      (splitHostRest (strDrop s 8)).2⟩
  else if strStarts s "http://" then
    some ⟨"http", (splitHostRest (strDrop s 7)).1,
      (splitHostRest (strDrop s 7)).2⟩
  else if strStarts s "mailto:" then some ⟨"mailto", "", strDrop s 7⟩
  else if strStarts s "javascript:" then some ⟨"javascript", "", strDrop s 11⟩
  else if strStarts s "://" then none
  else some ⟨"", "", s⟩

/-- A concrete `ResolveReference` fragment (see section comment). -/
def demoResolve (base ref : GoURL) : GoURL :=
  if ref.scheme = "" then ⟨base.scheme, base.host, ref.rest⟩ else ref

/-- A concrete `URL.String`. -/
def demoRender (u : GoURL) : String :=
  u.scheme ++ "://" ++ u.host ++ u.rest

/-- The concrete URL capability. -/
def demoOps : URLOps := ⟨demoParse, demoResolve, demoRender⟩

/-- The base URL `https://example.com`. -/
def demoBase : GoURL := ⟨"https", "example.com", ""⟩

/-- An anchor element with a single `href` attribute. -/
def anchorNode (href : String) : HTMLNode :=
  .node .element "a" [⟨"href", href⟩] .nil .nil

example :
    memKey (traverseNode demoOps demoBase
      (.node .element "div" [] .nil .nil) (initResult "u")).headings "h1"
      = false := by decide

example :
    (traverseNode demoOps demoBase (anchorNode "mailto:x@y")
      (initResult "u")).externalLinks = 1 := by decide

example :
    (traverseNode demoOps demoBase
      (.node .element "body" []
        (.node .element "h1" [] (.node .text "Hello " [] .nil .nil)
          (anchorNode "/about"))
        .nil) (initResult "u")) =
      { url := "u", headings := [("h1", 1)], internalLinks := 1 } := by
  decide

/-! ## Remaining small helpers -/

theorem xhtml_ne_html (d : String)
    (h : hasSubstr d "xhtml" = true) : d ≠ "html" := by
  intro hd
  subst hd
  exact absurd h (by decide)

theorem html4_ne_html (d : String)
    (h : hasSubstr d "html 4" = true) : d ≠ "html" := by
  intro hd
  subst hd
  exact absurd h (by decide)

theorem headingAt_eq_tagIs (k : String)
    (hk : k = "h1" ∨ k = "h2" ∨ k = "h3" ∨ k = "h4" ∨ k = "h5" ∨
      k = "h6") (m : HTMLNode) : headingAt k m = tagIs k m := by
  rcases hk with rfl | rfl | rfl | rfl | rfl | rfl <;>
    (cases m with
     | nil => simp [headingAt, tagIs]
     | node t d attrs fc ns =>
         by_cases hd1 : strToLower d = "h1" <;>
           by_cases hd2 : strToLower d = "h2" <;>
             by_cases hd3 : strToLower d = "h3" <;>
               by_cases hd4 : strToLower d = "h4" <;>
                 by_cases hd5 : strToLower d = "h5" <;>
                   by_cases hd6 : strToLower d = "h6" <;>
                     simp [headingAt, tagIs, hd1, hd2, hd3, hd4, hd5, hd6])

/-! ## The claims -/

/-- C1, counterexample: for the document consisting of one anchor
`<a href="mailto:x@y">` analysed against base `https://example.com`,
the code increments the cross-site counter (sum of counters = 1),
while the number of anchors whose first href parses and resolves to an
HTTP/HTTPS address is 0 — so the claimed equality, and the clause that a
`mailto:` anchor increments neither counter, both fail; the probe set is
nevertheless empty as claimed. -/
theorem c1_mailto_counterexample :
    ((traverseNode demoOps demoBase (anchorNode "mailto:x@y")
        (initResult "https://example.com")).internalLinks +
      (traverseNode demoOps demoBase (anchorNode "mailto:x@y")
        (initResult "https://example.com")).externalLinks = 1)
    ∧ specHttpAnchorTotal demoOps demoBase (anchorNode "mailto:x@y") = 0
    ∧ (extractLinks demoOps demoBase (anchorNode "mailto:x@y")).length
        = 0 := by
  decide

/-- C1 (amended): the sum of the same-site and cross-site counters
equals the number of anchor elements whose attribute scan finds a
parseable `href` (the scan skips unparseable `href` attributes and uses
the first one that parses), *regardless of the resolved scheme* — a
`mailto:`/`javascript:` anchor with a parseable href increments a
counter, classified by host equality.  The probe set holds exactly the
anchors whose scanned href resolves to `http`/`https`, so its size never
exceeds the counter sum. -/
theorem c1_link_counters (ops : URLOps) (base : GoURL) (n : HTMLNode)
    (target : String) :
    ((traverseNode ops base n (initResult target)).internalLinks +
        (traverseNode ops base n (initResult target)).externalLinks =
      countedLinkTotal ops base n)
    ∧ (extractLinks ops base n).length = probedLinkTotal ops base n
    ∧ probedLinkTotal ops base n ≤ countedLinkTotal ops base n := by
  refine ⟨?_, extractLinks_len ops base n, probed_le_counted ops base n⟩
  have h := traverseNode_linkSum ops base n (initResult target)
  simpa [initResult] using h

/-- C2, counterexample: analysing a document with no headings (a single
`div` element) leaves the headings map empty — the key `h1` is not
present, contradicting the claim that all six keys `h1`..`h6` are
present even when their count is zero. -/
theorem c2_empty_map_counterexample :
    memKey (traverseNode demoOps demoBase
      (.node .element "div" [] .nil .nil) (initResult "u")).headings "h1"
      = false := by
  decide

/-- C2 (amended): for every heading level `h1`..`h6`, the headings map
entry (read with the Go zero-value convention for absent keys) equals
the number of element nodes with that case-folded tag, counting every
occurrence; but the map is *not* pre-populated — a level's key is
present exactly when its count is positive (`m[k]++` inserts the key on
first increment). -/
theorem c2_heading_counts (ops : URLOps) (base : GoURL) (n : HTMLNode)
    (target k : String)
    (hk : k = "h1" ∨ k = "h2" ∨ k = "h3" ∨ k = "h4" ∨ k = "h5" ∨
      k = "h6") :
    lookupNat (traverseNode ops base n (initResult target)).headings k =
      tagTotal k n
    ∧ (memKey (traverseNode ops base n (initResult target)).headings k
        = true ↔ 0 < tagTotal k n) := by
  have hfun : (fun m => (headingAt k m).toNat) =
      (fun m => (tagIs k m).toNat) :=
    funext fun m => by rw [headingAt_eq_tagIs k hk m]
  constructor
  · have h := traverseNode_lookup ops base k n (initResult target)
    rw [hfun] at h
    simpa [initResult, lookupNat, tagTotal] using h
  · have h := traverseNode_mem ops base k n (initResult target)
    rw [h]
    have h2 := anyNode_pos (headingAt k) n
    rw [hfun] at h2
    simpa [initResult, memKey, tagTotal] using h2

/-- C2 witness: the amended statement applied at level `h1` on a
one-heading document: the entry is 1 and the key is present. -/
theorem c2_heading_counts_witness :
    lookupNat (traverseNode demoOps demoBase
        (.node .element "h1" [] .nil .nil) (initResult "u")).headings "h1"
      = tagTotal "h1" (.node .element "h1" [] .nil .nil)
    ∧ (memKey (traverseNode demoOps demoBase
        (.node .element "h1" [] .nil .nil) (initResult "u")).headings "h1"
        = true ↔
       0 < tagTotal "h1" (.node .element "h1" [] .nil .nil)) :=
  c2_heading_counts demoOps demoBase (.node .element "h1" [] .nil .nil)
    "u" "h1" (Or.inl rfl)

/-- C3, counterexample: a document with no doctype node at all leaves
the version field at its zero value `""` — it is *not* defaulted to
`"HTML5"` (`detectHTMLVersion` is only called when a doctype node is
encountered). -/
theorem c3_no_doctype_counterexample :
    ¬ ((traverseNode demoOps demoBase
        (.node .element "html" [] .nil .nil)
        (initResult "u")).htmlVersion = "HTML5") := by
  decide

/-- C3 (amended): the detected version is the `detectHTMLVersion` of the
last doctype node's literal when one exists, and the empty string — not
HTML5 — when the document has no doctype node; `detectHTMLVersion`
itself maps exactly-`"html"` to HTML5, anything containing `"xhtml"` to
XHTML, anything containing `"html 4"` (and not `"xhtml"`) to HTML 4.01,
and everything else (the unrecognized case) to HTML5. -/
theorem c3_version_detection :
    (∀ (ops : URLOps) (base : GoURL) (n : HTMLNode) (target : String),
      (traverseNode ops base n (initResult target)).htmlVersion =
        (lastWriteNode versionWrite n).getD "")
    ∧ (∀ s : String,
        (strToLower (strTrim s) = "html" →
          detectHTMLVersion s = "HTML5")
        ∧ (hasSubstr (strToLower (strTrim s)) "xhtml" = true →
            detectHTMLVersion s = "XHTML")
        ∧ (hasSubstr (strToLower (strTrim s)) "xhtml" = false →
            hasSubstr (strToLower (strTrim s)) "html 4" = true →
            detectHTMLVersion s = "HTML 4.01")
        ∧ (strToLower (strTrim s) ≠ "html" →
            hasSubstr (strToLower (strTrim s)) "xhtml" = false →
            hasSubstr (strToLower (strTrim s)) "html 4" = false →
            detectHTMLVersion s = "HTML5")) := by
  constructor
  · intro ops base n target
    have h := traverseNode_version ops base n (initResult target)
    simpa [initResult] using h
  · intro s
    refine ⟨fun h => ?_, fun h => ?_, fun h1 h2 => ?_,
      fun h1 h2 h3 => ?_⟩
    · simp [detectHTMLVersion, h]
    · have hne := xhtml_ne_html _ h
      simp [detectHTMLVersion, hne, h]
    · have hne := html4_ne_html _ h2
      simp [detectHTMLVersion, hne, h1, h2]
    · simp [detectHTMLVersion, h1, h2, h3]

/-- C3 witness: the amended statement applied at a concrete doctype
literal and a concrete doctype-less document. -/
theorem c3_version_detection_witness :
    detectHTMLVersion "xhtml 1.0" = "XHTML"
    ∧ (traverseNode demoOps demoBase (.node .element "p" [] .nil .nil)
        (initResult "u")).htmlVersion = "" := by
  constructor
  · exact (c3_version_detection.2 "xhtml 1.0").2.1 (by decide)
  · rw [c3_version_detection.1 demoOps demoBase
      (.node .element "p" [] .nil .nil) "u"]
    decide

/-- C4: the credential-form classifier accepts a node exactly when its
tree holds at least one input of case-folded type `password` and at
least one input whose case-folded name contains `user`, `email` or
`login` while its scanned type is `text`, `email` or empty (absent); and
the page-level flag is the OR, over all `form` elements of the document,
of this classification. -/
theorem c4_login_form_classifier :
    (∀ n : HTMLNode,
      isLoginForm n =
        (anyNode passwordInputAt n && anyNode usernameInputAt n))
    ∧ (∀ (ops : URLOps) (base : GoURL) (n : HTMLNode) (target : String),
        (traverseNode ops base n (initResult target)).hasLoginForm =
          anyNode loginFormAt n) := by
  constructor
  · exact isLoginForm_char
  · intro ops base n target
    have h := traverseNode_loginFlag ops base n (initResult target)
    simpa [initResult] using h

/-- C5: the accessibility checker's effective worker count is
`min W (number of targets)`; it is at least 1 whenever the worker limit
is at least 1 and the target list is non-empty; and an empty target list
short-circuits to an unreachable count of 0 (before any client, worker
or probe is created). -/
theorem c5_worker_policy (maxWorkers : Nat) (links : List String)
    (probe : String → Bool) :
    effectiveWorkers maxWorkers links.length = min maxWorkers links.length
    ∧ (1 ≤ maxWorkers → links ≠ [] →
        1 ≤ effectiveWorkers maxWorkers links.length)
    ∧ checkLinksAccessibility maxWorkers probe [] = 0 := by
  refine ⟨?_, ?_, rfl⟩
  · unfold effectiveWorkers
    split_ifs <;> omega
  · intro h1 h2
    have h3 : 0 < links.length := List.length_pos.mpr h2
    unfold effectiveWorkers
    split_ifs <;> omega

/-- C5 witness: the policy applied to a worker limit of 3 and a
single-element target list. -/
theorem c5_worker_policy_witness :
    effectiveWorkers 3 (["http://a"] : List String).length =
      min 3 (["http://a"] : List String).length
    ∧ 1 ≤ effectiveWorkers 3 (["http://a"] : List String).length
    ∧ checkLinksAccessibility 3 (fun _ => true) [] = 0 := by
  have h := c5_worker_policy 3 ["http://a"] (fun _ => true)
  exact ⟨h.1, h.2.1 (by omega) (by decide), h.2.2⟩

/-- C6: a probed target is classified reachable exactly when request
creation succeeds and `client.Do` — which follows at most the configured
redirect ceiling before `CheckRedirect` aborts the request — returns a
final status in `[200, 400)`.  Every failure (request creation, DNS,
refusal, timeout, redirect overflow: all the `none` outcomes of
`clientDo`) maps to the same bare `false`, so causes are
indistinguishable in the aggregate by construction. -/
theorem c6_reachability (newReq : String → Bool)
    (fetchOne : String → Option (Nat × Option String))
    (maxRedirects : Nat) (link : String) :
    checkSingleLink newReq fetchOne maxRedirects link = true ↔
      (newReq link = true ∧
        ∃ status, clientDo fetchOne maxRedirects link = some status ∧
          200 ≤ status ∧ status < 400) := by
  cases hn : newReq link with
  | false => simp [checkSingleLink, hn]
  | true =>
      cases hc : clientDo fetchOne maxRedirects link with
      | none => simp [checkSingleLink, hn, hc]
      | some status => simp [checkSingleLink, hn, hc]

/-- C7: `AnalyzeURL` returns an error exactly when URL validation or the
fetch/parse phase fails; when the fetch succeeds it always returns a
full result — for every probe behaviour — whose unreachable count is the
aggregate over the extracted links, so a per-link probe failure is never
fatal and surfaces only inside that count. -/
theorem c7_error_discipline (maxWorkers : Nat) (ops : URLOps)
    (probe : String → Bool) (fetch : String → Except String HTMLNode)
    (targetURL : String) :
    ((∃ e, analyzeURL maxWorkers ops probe fetch targetURL = .error e) ↔
      (normalizeTarget ops targetURL = none ∨
        ∃ t p, normalizeTarget ops targetURL = some (t, p) ∧
          ∃ e, fetch t = .error e))
    ∧ (∀ t p doc, normalizeTarget ops targetURL = some (t, p) →
        fetch t = .ok doc →
        ∃ r, analyzeURL maxWorkers ops probe fetch targetURL = .ok r ∧
          r.inaccessibleLinks =
            checkLinksAccessibility maxWorkers probe
              (extractLinks ops p doc)) := by
  constructor
  · cases hnt : normalizeTarget ops targetURL with
    | none => simp [analyzeURL, hnt]
    | some tp =>
        obtain ⟨t, p⟩ := tp
        cases hf : fetch t with
        | error e => simp [analyzeURL, hnt, hf]
        | ok doc =>
            simp only [analyzeURL, hnt, hf]
            by_cases hl : (extractLinks ops p doc).length > 0 <;>
              simp [hl, hf]
  · intro t p doc hnt hf
    simp only [analyzeURL, hnt, hf]
    by_cases hl : (extractLinks ops p doc).length > 0
    · simp only [hl, if_pos hl]
      exact ⟨_, rfl, rfl⟩
    · have hlen : (extractLinks ops p doc).length = 0 := by omega
      simp only [hl, if_neg hl]
      refine ⟨_, rfl, ?_⟩
      rw [traverseNode_inacc]
      simp [initResult, checkLinksAccessibility, hlen]

/-- C7 witness: the success clause applied at a concrete target, fetch
outcome and probe. -/
theorem c7_error_discipline_witness :
    ∃ r, analyzeURL 3 demoOps (fun _ => false)
        (fun _ => .ok (anchorNode "/x")) "https://example.com" = .ok r ∧
      r.inaccessibleLinks =
        checkLinksAccessibility 3 (fun _ => false)
          (extractLinks demoOps ⟨"https", "example.com", ""⟩
            (anchorNode "/x")) :=
  (c7_error_discipline 3 demoOps (fun _ => false)
      (fun _ => .ok (anchorNode "/x")) "https://example.com").2
    "https://example.com" ⟨"https", "example.com", ""⟩
    (anchorNode "/x") (by decide) rfl

/-- C8: for every document, the unreachable count computed over the
extracted probe set is at most the number of probed targets, which in
turn is at most the sum of the same-site and cross-site counters
produced by traversal from a fresh result. -/
theorem c8_probe_bounds (ops : URLOps) (base : GoURL) (n : HTMLNode)
    (maxWorkers : Nat) (probe : String → Bool) (target : String) :
    checkLinksAccessibility maxWorkers probe (extractLinks ops base n) ≤
      (extractLinks ops base n).length
    ∧ (extractLinks ops base n).length ≤
        (traverseNode ops base n (initResult target)).internalLinks +
          (traverseNode ops base n (initResult target)).externalLinks := by
  refine ⟨checkLinks_le _ _ _, ?_⟩
  rw [extractLinks_len]
  have h1 := traverseNode_linkSum ops base n (initResult target)
  have h2 := probed_le_counted ops base n
  have h0 : (initResult target).internalLinks = 0 := rfl
  have h0' : (initResult target).externalLinks = 0 := rfl
  omega

/-- C9: traversal sets the title to the trimmed text of each `title`
element whose first child is a text node, so the final title is that of
the last such element in document (pre-order) order, and the empty
string when no such element exists. -/
theorem c9_title_last_wins (ops : URLOps) (base : GoURL) (n : HTMLNode)
    (target : String) :
    (traverseNode ops base n (initResult target)).title =
      (lastWriteNode titleWrite n).getD "" := by
  have h := traverseNode_title ops base n (initResult target)
  simpa [initResult] using h

/-- C10: `detectHTMLVersion` is total — every input maps to `HTML5`,
`XHTML` or `HTML 4.01` — and the `xhtml` substring check runs before the
`html 4` check (the exact-`"html"` check, though first, cannot fire on
any input containing `"xhtml"`), so a doctype containing both `"xhtml"`
and `"html 4"` is classified XHTML. -/
theorem c10_detect_total_ordered (s : String) :
    (detectHTMLVersion s = "HTML5" ∨ detectHTMLVersion s = "XHTML" ∨
      detectHTMLVersion s = "HTML 4.01")
    ∧ (hasSubstr (strToLower (strTrim s)) "xhtml" = true →
        detectHTMLVersion s = "XHTML")
    ∧ (hasSubstr (strToLower (strTrim s)) "xhtml" = true →
        hasSubstr (strToLower (strTrim s)) "html 4" = true →
        detectHTMLVersion s = "XHTML") := by
  have hx : hasSubstr (strToLower (strTrim s)) "xhtml" = true →
      detectHTMLVersion s = "XHTML" := by
    intro h
    have hne := xhtml_ne_html _ h
    simp [detectHTMLVersion, hne, h]
  refine ⟨?_, hx, fun h _ => hx h⟩
  simp only [detectHTMLVersion]
  split_ifs <;> simp

/-- C10 witness: a doctype literal containing both `xhtml` and `html 4`
is classified XHTML. -/
theorem c10_detect_total_ordered_witness :
    detectHTMLVersion "xhtml html 4" = "XHTML" :=
  (c10_detect_total_ordered "xhtml html 4").2.2 (by decide) (by decide)

end WebAnalyzer
